import Mathlib

/-!
Verification of the earthquake fetch/merge/classify pipeline
(`DataDownloader.py`) and the plotting preprocessing (`checkpoint.py`).

Shallow embedding conventions:
* geographic coordinates and magnitudes are rationals (the scripts compare
  decimal literals; `ℚ` models those comparisons exactly);
* a CSV text blob is modelled either as a `String` or, where the code
  immediately splits it on newlines, as its list of lines (`List String`);
* the network is modelled by passing each request's outcome
  (an HTTP response with a status code and body text, or a raised
  exception) as an explicit argument;
* a dataframe is a list of row records, in file order.
-/

namespace Quakes

/-- Rectangular latitude/longitude bound, as in the `REGIONS` dict of
`DataDownloader.py`. -/
structure Box where
  lat_min : ℚ
  lat_max : ℚ
  lon_min : ℚ
  lon_max : ℚ
deriving DecidableEq, Repr

/-- Bounding box `REGIONS['Conterminous_US']`. -/
def Conterminous_US : Box := ⟨24.6, 50.0, -125.0, -65.0⟩

/-- Bounding box `REGIONS['Alaska_west_dateline']`. -/
def Alaska_west_dateline : Box := ⟨50.0, 72.0, -180.0, -169.5⟩

/-- Bounding box `REGIONS['Alaska_main']`. -/
def Alaska_main : Box := ⟨54.0, 72.0, -169.5, -129.0⟩

/-- Bounding box `REGIONS['Alaska_east_dateline']`. -/
def Alaska_east_dateline : Box := ⟨50.0, 72.0, 170.0, 180.0⟩

/-- Bounding box `REGIONS['Hawaii']`. -/
def Hawaii : Box := ⟨18.5, 22.5, -161.0, -154.5⟩

/-- Bounding box `REGIONS['Puerto_Rico']`. -/
def Puerto_Rico : Box := ⟨17.5, 18.8, -67.5, -64.0⟩

/-- The `REGIONS` dict of `DataDownloader.py`, in insertion order
(Python dicts iterate in insertion order). -/
def REGIONS : List (String × Box) :=
  [("Conterminous_US", Conterminous_US),
   ("Alaska_west_dateline", Alaska_west_dateline),
   ("Alaska_main", Alaska_main),
   ("Alaska_east_dateline", Alaska_east_dateline),
   ("Hawaii", Hawaii),
   ("Puerto_Rico", Puerto_Rico)]

/-- Closed-interval box membership, the chained comparison
`b['lat_min'] <= lat <= b['lat_max'] and b['lon_min'] <= lon <= b['lon_max']`
used by `classify_region`. -/
def inBox (b : Box) (lat lon : ℚ) : Prop :=
  b.lat_min ≤ lat ∧ lat ≤ b.lat_max ∧ b.lon_min ≤ lon ∧ lon ≤ b.lon_max

instance (b : Box) (lat lon : ℚ) : Decidable (inBox b lat lon) := by
  unfold inBox; infer_instance

/-- One parsed record of the combined CSV read back by
`pd.read_csv('temp_combined.csv')`: the four fields the pipeline inspects
(`time`, `latitude`, `longitude`, `mag`) plus representative passthrough
fields (`depth`, `place`); `depth` is nullable. The `time` value is the
catalog's ISO-8601 UTC timestamp string, on which lexicographic order
coincides with chronological order. -/
structure EventRow where
  time : String
  latitude : ℚ
  longitude : ℚ
  depth : Option ℚ
  mag : ℚ
  place : String
deriving DecidableEq, Repr

/-- The row-wise classifier `classify_region` of `DataDownloader.py`
(lines 159-182): three Alaska boxes checked in order, then Hawaii, then
Puerto Rico, else "Conterminous US". It reads only
`row['latitude']` and `row['longitude']`. -/
def classify_region (r : EventRow) : String :=
  if inBox Alaska_west_dateline r.latitude r.longitude then "Alaska"
  else if inBox Alaska_main r.latitude r.longitude then "Alaska"
  else if inBox Alaska_east_dateline r.latitude r.longitude then "Alaska"
  else if inBox Hawaii r.latitude r.longitude then "Hawaii"
  else if inBox Puerto_Rico r.latitude r.longitude then "Puerto Rico"
  else "Conterminous US"

/-- Modelled from the spec wording for comparison with the code: a label
computed from latitude and longitude alone by ordered precedence over
closed-interval box membership — any of the three Alaska boxes gives
"Alaska", else the Hawaii box gives "Hawaii", else the Puerto Rico box
gives "Puerto Rico", else "Conterminous US". -/
def regionOfCoords (lat lon : ℚ) : String :=
  if inBox Alaska_west_dateline lat lon ∨ inBox Alaska_main lat lon ∨
      inBox Alaska_east_dateline lat lon then "Alaska"
  else if inBox Hawaii lat lon then "Hawaii"
  else if inBox Puerto_Rico lat lon then "Puerto Rico"
  else "Conterminous US"

/-- Display ordering of region labels, `region_order` of `checkpoint.py`. -/
def region_order : List String :=
  ["Alaska", "Conterminous US", "Hawaii", "Puerto Rico"]

/-- C1: for every row, the derived region label is computed from the row's
latitude and longitude alone, by ordered precedence over closed-interval box
membership: the three Alaska boxes (west-dateline, main, east-dateline) give
"Alaska", else the Hawaii box gives "Hawaii", else the Puerto Rico box gives
"Puerto Rico", else "Conterminous US". -/
theorem classify_region_eq_precedence (r : EventRow) :
    classify_region r = regionOfCoords r.latitude r.longitude := by
  by_cases h1 : inBox Alaska_west_dateline r.latitude r.longitude <;>
    by_cases h2 : inBox Alaska_main r.latitude r.longitude <;>
      by_cases h3 : inBox Alaska_east_dateline r.latitude r.longitude <;>
        simp [classify_region, regionOfCoords, h1, h2, h3]

/-- C6: classification only ever produces one of the four labels
"Alaska", "Conterminous US", "Hawaii", "Puerto Rico" (the `region_order`
list of `checkpoint.py`), so every row written to the output CSV carries a
label from exactly that set. -/
theorem classify_region_mem_region_order (r : EventRow) :
    classify_region r ∈ region_order := by
  unfold classify_region region_order
  split_ifs <;> simp

/-- C7: a row strictly inside the Hawaii box and outside all three Alaska
boxes is labelled "Hawaii". The classifier's argument is the row alone — it
has no parameter recording which region box the row was fetched under, so
the label cannot depend on the fetch-time region. -/
theorem classify_region_hawaii (r : EventRow)
    (hlat₁ : Hawaii.lat_min < r.latitude) (hlat₂ : r.latitude < Hawaii.lat_max)
    (hlon₁ : Hawaii.lon_min < r.longitude) (hlon₂ : r.longitude < Hawaii.lon_max)
    (hA₁ : ¬ inBox Alaska_west_dateline r.latitude r.longitude)
    (hA₂ : ¬ inBox Alaska_main r.latitude r.longitude)
    (hA₃ : ¬ inBox Alaska_east_dateline r.latitude r.longitude) :
    classify_region r = "Hawaii" := by
  have hH : inBox Hawaii r.latitude r.longitude :=
    ⟨le_of_lt hlat₁, le_of_lt hlat₂, le_of_lt hlon₁, le_of_lt hlon₂⟩
  simp [classify_region, hA₁, hA₂, hA₃, hH]

/-- Witness for C7 at a concrete epicenter on the Big Island of Hawaii. -/
theorem classify_region_hawaii_witness :
    classify_region ⟨"2020-03-01T00:00:00.000Z", 19.4, -155.3, some 10, 5.1, "Hawaii"⟩
      = "Hawaii" := by
  apply classify_region_hawaii <;> first
    | (show (_ : ℚ) < _; norm_num [Hawaii])
    | (intro h; obtain ⟨a, b, c, d⟩ := h; norm_num
        [Alaska_west_dateline, Alaska_main, Alaska_east_dateline] at a b c d)

/-- Outcome of one `requests.get` call in `download_earthquakes`: either a
response carrying a status code and body text, or a raised exception with a
message. -/
inductive HttpOutcome where
  | response (status_code : ℕ) (text : String)
  | exn (msg : String)
deriving DecidableEq, Repr

/-- Function `download_earthquakes` (lines 23-36): on status 200 return the
response text, on any other status return `None`, and on a raised exception
catch it and return `None`. The network effect is the explicit `outcome`
argument; totality of this function models that no exception propagates to
the caller. -/
def download_earthquakes (outcome : HttpOutcome) : Option String :=
  match outcome with
  | .response status text => if status = 200 then some text else none
  | .exn _ => none

/-- Accumulation of one time window's `period_data` list (lines 109-121):
each region's `csv_text` is appended when it is truthy, i.e. not `None` and
not the empty string. -/
def period_data (outcomes : List HttpOutcome) : List String :=
  outcomes.filterMap fun o =>
    match download_earthquakes o with
    | some t => if t = "" then none else some t
    | none => none

/-- The `date_ranges` table of 14 time windows (lines 80-98). -/
def date_ranges : List (String × String) :=
  [("1925-01-01", "1934-12-31"),
   ("1935-01-01", "1944-12-31"),
   ("1945-01-01", "1954-12-31"),
   ("1955-01-01", "1964-12-31"),
   ("1965-01-01", "1974-12-31"),
   ("1975-01-01", "1984-12-31"),
   ("1985-01-01", "1994-12-31"),
   ("1995-01-01", "1999-12-31"),
   ("2000-01-01", "2004-12-31"),
   ("2005-01-01", "2009-12-31"),
   ("2010-01-01", "2014-12-31"),
   ("2015-01-01", "2019-12-31"),
   ("2020-01-01", "2024-12-31"),
   ("2025-01-01", "2025-11-02")]

/-- The main download loop (lines 104-126): for each time window, in order,
extend `all_data` with that window's `period_data` over the six regions in
`REGIONS` order. The network is a function from (start date, end date,
region name) to the request's outcome. -/
def all_data (net : String → String → String → HttpOutcome) : List String :=
  date_ranges.flatMap fun dr =>
    period_data (REGIONS.map fun rb => net dr.1 dr.2 rb.1)

/-- The combining loop of lines 133-142 at the string level: start from the
first blob, and for each later blob split it on newlines and, when it has
more than one line, append a newline and the re-joined tail (all lines
after the header line). -/
def combined_text (first : String) (rest : List String) : String :=
  rest.foldl
    (fun acc csv_text =>
      let lines := csv_text.splitOn "\n"
      if 1 < lines.length then
        acc ++ "\n" ++ String.intercalate "\n" (lines.drop 1)
      else acc)
    first

/-- The same combining loop of lines 133-142, with every blob represented
by its list of lines (the list `csv_text.split('\n')` the code works on):
the first blob's lines are kept whole, and each later blob contributes the
lines after its first (header) line, nothing when it has at most one line. -/
def combined_lines (first : List String) (rest : List (List String)) :
    List String :=
  rest.foldl (fun acc lines => if 1 < lines.length then acc ++ lines.drop 1 else acc)
    first

/-- Observable effects of one run of the fetcher script: the content written
to `temp_combined.csv` (none when it is not written), whether the output CSV
`us_earthquakes_m4.5_complete.csv` is written, and whether the no-data
message is printed. -/
structure FetcherRun where
  tempContent : Option String
  wroteOutput : Bool
  printedNoData : Bool
deriving DecidableEq, Repr

/-- Top-level control flow of lines 133-210: when `all_data` is empty the
script only prints the no-data message; otherwise it writes the combined
text to the temporary file and (parse succeeding) writes the output CSV. -/
def runFetcher (net : String → String → String → HttpOutcome) : FetcherRun :=
  match all_data net with
  | [] => { tempContent := none, wroteOutput := false, printedNoData := true }
  | first :: rest =>
      { tempContent := some (combined_text first rest)
        wroteOutput := true
        printedNoData := false }

theorem combined_lines_length (first : List String) (rest : List (List String)) :
    (combined_lines first rest).length
      = first.length + (rest.map fun b => b.length - 1).sum := by
  induction rest generalizing first with
  | nil => simp [combined_lines]
  | cons b bs ih =>
      simp only [combined_lines, List.foldl_cons, List.map_cons, List.sum_cons]
      by_cases hb : 1 < b.length
      · rw [if_pos hb]
        rw [show (List.foldl
            (fun acc lines => if 1 < lines.length then acc ++ lines.drop 1 else acc)
            (first ++ b.drop 1) bs) = combined_lines (first ++ b.drop 1) bs from rfl,
          ih]
        simp; omega
      · rw [if_neg hb]
        rw [show (List.foldl
            (fun acc lines => if 1 < lines.length then acc ++ lines.drop 1 else acc)
            first bs) = combined_lines first bs from rfl, ih]
        omega

/-- C2: the combined text keeps the first blob whole and appends only the
lines after the header line of every later blob, so its data-row count
(its line count minus the one header line) equals the sum over all blobs of
that blob's line count minus one. The first blob is nonempty as a line
list, since splitting a string on newlines always yields at least one
line. -/
theorem combined_lines_row_count (first : List String)
    (rest : List (List String)) (h : first ≠ []) :
    (combined_lines first rest).length - 1
      = (((first :: rest).map fun b => b.length - 1)).sum := by
  have h1 : 1 ≤ first.length := List.length_pos.mpr h
  rw [List.map_cons, List.sum_cons, combined_lines_length]
  omega

/-- Witness for C2: a first blob of a header and one data row combined with
a second blob of a header and two data rows gives three data rows. -/
theorem combined_lines_row_count_witness :
    ["time,latitude", "r1"] ≠ ([] : List String) ∧
    (combined_lines ["time,latitude", "r1"] [["time,latitude", "r2", "r3"]]).length - 1
      = ((([["time,latitude", "r1"], ["time,latitude", "r2", "r3"]]).map
          fun b => b.length - 1)).sum := by
  refine ⟨by simp, combined_lines_row_count _ _ (by simp)⟩

/-- Key used by `df.drop_duplicates(subset=['time', 'latitude', 'longitude',
'mag'])` (line 154): the four named fields, compared exactly. -/
def dedupKey (r : EventRow) : String × ℚ × ℚ × ℚ :=
  (r.time, r.latitude, r.longitude, r.mag)

/-- Recursive core of `drop_duplicates`: keep a row when its key has not
been seen yet (pandas keeps the first occurrence and preserves row
order). -/
def dropDupAux : List EventRow → List (String × ℚ × ℚ × ℚ) → List EventRow
  | [], _ => []
  | r :: rs, seen =>
      if dedupKey r ∈ seen then dropDupAux rs seen
      else r :: dropDupAux rs (dedupKey r :: seen)

/-- The call `df.drop_duplicates(subset=['time', 'latitude', 'longitude',
'mag'])` of line 154: keep the first row for each distinct key. -/
def drop_duplicates (rows : List EventRow) : List EventRow :=
  dropDupAux rows []

theorem countP_dropDupAux (k : String × ℚ × ℚ × ℚ) :
    ∀ (rows : List EventRow) (seen : List (String × ℚ × ℚ × ℚ)),
      ((dropDupAux rows seen).countP fun r => decide (dedupKey r = k))
        = if k ∈ seen then 0
          else if rows.any (fun r => decide (dedupKey r = k)) then 1 else 0 := by
  intro rows
  induction rows with
  | nil => intro seen; simp [dropDupAux]
  | cons r rs ih =>
      intro seen
      by_cases hr : dedupKey r ∈ seen
      · simp only [dropDupAux, if_pos hr]
        rw [ih seen]
        by_cases hk : k ∈ seen
        · simp [hk]
        · have hne : ¬ dedupKey r = k := fun he => hk (he ▸ hr)
          simp [hk, hne]
      · simp only [dropDupAux, if_neg hr]
        rw [List.countP_cons, ih (dedupKey r :: seen)]
        by_cases hk : k = dedupKey r
        · subst hk
          simp [hr, List.mem_cons]
        · have hne : ¬ dedupKey r = k := fun he => hk he.symm
          simp [hk, hne, List.mem_cons]

theorem countP_drop_duplicates (k : String × ℚ × ℚ × ℚ)
    (rows : List EventRow) :
    ((drop_duplicates rows).countP fun r => decide (dedupKey r = k))
      = if rows.any (fun r => decide (dedupKey r = k)) then 1 else 0 := by
  rw [drop_duplicates, countP_dropDupAux]
  simp

theorem key_mem_drop_duplicates (rows : List EventRow) (r : EventRow)
    (hr : r ∈ rows) :
    ∃ s ∈ drop_duplicates rows, dedupKey s = dedupKey r := by
  have hany : rows.any (fun s => decide (dedupKey s = dedupKey r)) = true := by
    simp only [List.any_eq_true]
    exact ⟨r, hr, by simp⟩
  have hc := countP_drop_duplicates (dedupKey r) rows
  rw [if_pos hany] at hc
  have hpos : 0 < (drop_duplicates rows).countP
      fun s => decide (dedupKey s = dedupKey r) := by omega
  obtain ⟨s, hs, hks⟩ := List.countP_pos_iff.mp hpos
  exact ⟨s, hs, of_decide_eq_true hks⟩

/-- C3: two parsed blobs sharing one data row that agrees exactly on the
four fields time, latitude, longitude and mag merge to a combined list in
which rows with that key occur exactly once after `drop_duplicates`;
matching is exact (no tolerance), so any two rows differing on the key both
keep a representative in the output. -/
theorem merge_dedup_shared_row (b₁ b₂ : List EventRow)
    (k : String × ℚ × ℚ × ℚ)
    (h₁ : ∃ r ∈ b₁, dedupKey r = k) (_h₂ : ∃ r ∈ b₂, dedupKey r = k) :
    ((drop_duplicates (b₁ ++ b₂)).countP fun r => decide (dedupKey r = k)) = 1 ∧
      ∀ r₁ ∈ b₁ ++ b₂, ∀ r₂ ∈ b₁ ++ b₂, dedupKey r₁ ≠ dedupKey r₂ →
        (∃ s ∈ drop_duplicates (b₁ ++ b₂), dedupKey s = dedupKey r₁) ∧
          ∃ s ∈ drop_duplicates (b₁ ++ b₂), dedupKey s = dedupKey r₂ := by
  constructor
  · obtain ⟨r, hr, hk⟩ := h₁
    have hany : (b₁ ++ b₂).any (fun s => decide (dedupKey s = k)) = true := by
      simp only [List.any_eq_true]
      exact ⟨r, List.mem_append_left _ hr, by simp [hk]⟩
    rw [countP_drop_duplicates, if_pos hany]
  · intro r₁ hr₁ r₂ hr₂ _
    exact ⟨key_mem_drop_duplicates _ r₁ hr₁, key_mem_drop_duplicates _ r₂ hr₂⟩

/-- Witness for C3: two blobs overlapping in one Hawaii row (equal on the
four key fields, different `place` spellings) keep that row once; the two
rows with distinct keys both survive. -/
theorem merge_dedup_shared_row_witness :
    ((drop_duplicates
        ([⟨"2020-01-01T00:00:00.000Z", 61.2, -150.0, some 40, 5.0, "Anchorage"⟩,
          ⟨"2020-03-05T02:00:00.000Z", 19.2, -155.4, some 8, 5.3, "Island of Hawaii"⟩] ++
         [⟨"2020-03-05T02:00:00.000Z", 19.2, -155.4, some 8, 5.3, "Hawaii island"⟩,
          ⟨"2021-06-07T01:00:00.000Z", 18.1, -66.5, some 12, 4.7, "Puerto Rico"⟩])).countP
      fun r => decide (dedupKey r = ("2020-03-05T02:00:00.000Z", 19.2, -155.4, 5.3))) = 1 ∧
      ∀ r₁ ∈ ([⟨"2020-01-01T00:00:00.000Z", 61.2, -150.0, some 40, 5.0, "Anchorage"⟩,
          ⟨"2020-03-05T02:00:00.000Z", 19.2, -155.4, some 8, 5.3, "Island of Hawaii"⟩] ++
         [⟨"2020-03-05T02:00:00.000Z", 19.2, -155.4, some 8, 5.3, "Hawaii island"⟩,
          ⟨"2021-06-07T01:00:00.000Z", 18.1, -66.5, some 12, 4.7, "Puerto Rico"⟩]),
        ∀ r₂ ∈ ([⟨"2020-01-01T00:00:00.000Z", 61.2, -150.0, some 40, 5.0, "Anchorage"⟩,
          ⟨"2020-03-05T02:00:00.000Z", 19.2, -155.4, some 8, 5.3, "Island of Hawaii"⟩] ++
         [⟨"2020-03-05T02:00:00.000Z", 19.2, -155.4, some 8, 5.3, "Hawaii island"⟩,
          ⟨"2021-06-07T01:00:00.000Z", 18.1, -66.5, some 12, 4.7, "Puerto Rico"⟩]),
          dedupKey r₁ ≠ dedupKey r₂ →
          (∃ s ∈ drop_duplicates
            ([⟨"2020-01-01T00:00:00.000Z", 61.2, -150.0, some 40, 5.0, "Anchorage"⟩,
              ⟨"2020-03-05T02:00:00.000Z", 19.2, -155.4, some 8, 5.3, "Island of Hawaii"⟩] ++
             [⟨"2020-03-05T02:00:00.000Z", 19.2, -155.4, some 8, 5.3, "Hawaii island"⟩,
              ⟨"2021-06-07T01:00:00.000Z", 18.1, -66.5, some 12, 4.7, "Puerto Rico"⟩]),
            dedupKey s = dedupKey r₁) ∧
            ∃ s ∈ drop_duplicates
              ([⟨"2020-01-01T00:00:00.000Z", 61.2, -150.0, some 40, 5.0, "Anchorage"⟩,
                ⟨"2020-03-05T02:00:00.000Z", 19.2, -155.4, some 8, 5.3, "Island of Hawaii"⟩] ++
               [⟨"2020-03-05T02:00:00.000Z", 19.2, -155.4, some 8, 5.3, "Hawaii island"⟩,
                ⟨"2021-06-07T01:00:00.000Z", 18.1, -66.5, some 12, 4.7, "Puerto Rico"⟩]),
              dedupKey s = dedupKey r₂ :=
  merge_dedup_shared_row _ _ _
    ⟨⟨"2020-03-05T02:00:00.000Z", 19.2, -155.4, some 8, 5.3, "Island of Hawaii"⟩,
      by simp, by simp [dedupKey]⟩
    ⟨⟨"2020-03-05T02:00:00.000Z", 19.2, -155.4, some 8, 5.3, "Hawaii island"⟩,
      by simp, by simp [dedupKey]⟩

theorem dropDupAux_not_seen :
    ∀ (rows : List EventRow) (seen : List (String × ℚ × ℚ × ℚ)),
      ∀ r ∈ dropDupAux rows seen, dedupKey r ∉ seen := by
  intro rows
  induction rows with
  | nil => intro seen r hr; simp [dropDupAux] at hr
  | cons r rs ih =>
      intro seen s hs
      by_cases hr : dedupKey r ∈ seen
      · simp only [dropDupAux, if_pos hr] at hs
        exact ih seen s hs
      · simp only [dropDupAux, if_neg hr, List.mem_cons] at hs
        rcases hs with rfl | hs
        · exact hr
        · intro hmem
          exact ih (dedupKey r :: seen) s hs (List.mem_cons_of_mem _ hmem)

theorem nodup_keys_dropDupAux :
    ∀ (rows : List EventRow) (seen : List (String × ℚ × ℚ × ℚ)),
      ((dropDupAux rows seen).map dedupKey).Nodup := by
  intro rows
  induction rows with
  | nil => intro seen; simp [dropDupAux]
  | cons r rs ih =>
      intro seen
      by_cases hr : dedupKey r ∈ seen
      · simp only [dropDupAux, if_pos hr]
        exact ih seen
      · simp only [dropDupAux, if_neg hr, List.map_cons, List.nodup_cons]
        refine ⟨?_, ih (dedupKey r :: seen)⟩
        intro hmem
        obtain ⟨s, hs, hks⟩ := List.mem_map.mp hmem
        exact dropDupAux_not_seen rs (dedupKey r :: seen) s hs
          (hks ▸ List.mem_cons_self _ _)

theorem dropDupAux_eq_self :
    ∀ (rows : List EventRow) (seen : List (String × ℚ × ℚ × ℚ)),
      (rows.map dedupKey).Nodup → (∀ r ∈ rows, dedupKey r ∉ seen) →
      dropDupAux rows seen = rows := by
  intro rows
  induction rows with
  | nil => intro seen _ _; rfl
  | cons r rs ih =>
      intro seen hnodup hseen
      have hr : dedupKey r ∉ seen := hseen r (List.mem_cons_self _ _)
      simp only [List.map_cons, List.nodup_cons] at hnodup
      simp only [dropDupAux, if_neg hr]
      congr 1
      apply ih (dedupKey r :: seen) hnodup.2
      intro s hs
      rw [List.mem_cons]
      push_neg
      refine ⟨?_, hseen s (List.mem_cons_of_mem _ hs)⟩
      intro he
      exact hnodup.1 (he ▸ List.mem_map_of_mem dedupKey hs)

/-- C4: deduplication on the key (time, latitude, longitude, mag) is
idempotent — running `drop_duplicates` on its own output returns that
output unchanged, hence with the same row count. -/
theorem drop_duplicates_idempotent (rows : List EventRow) :
    drop_duplicates (drop_duplicates rows) = drop_duplicates rows := by
  apply dropDupAux_eq_self
  · exact nodup_keys_dropDupAux rows []
  · simp

/-- Row of the final dataframe after `df['region'] = df.apply(
classify_region, axis=1)` (line 185): an event row plus its derived region
label. The plotter reads rows of this shape back from the CSV. -/
structure ClassifiedRow extends EventRow where
  region : String
deriving DecidableEq, Repr

/-- The assignment `df['region'] = df.apply(classify_region, axis=1)`. -/
def addRegion (rows : List EventRow) : List ClassifiedRow :=
  rows.map fun r => { toEventRow := r, region := classify_region r }

/-- The call `df.sort_values('time')` of line 188: sort rows by the `time`
column, ascending. ISO-8601 UTC timestamp strings sort chronologically
under lexicographic string order. -/
def sort_values (rows : List ClassifiedRow) : List ClassifiedRow :=
  rows.mergeSort fun a b => decide (a.time ≤ b.time)

/-- C8: after `sort_values`, the rows written to the output CSV are in
ascending time order — every pair of consecutive rows satisfies
first.time ≤ second.time. -/
theorem sort_values_time_ascending (rows : List ClassifiedRow) :
    (sort_values rows).Chain' fun a b => a.time ≤ b.time := by
  have htrans : ∀ a b c : ClassifiedRow,
      decide (a.time ≤ b.time) = true → decide (b.time ≤ c.time) = true →
      decide (a.time ≤ c.time) = true := fun a b c h₁ h₂ =>
    decide_eq_true (le_trans (of_decide_eq_true h₁) (of_decide_eq_true h₂))
  have htotal : ∀ a b : ClassifiedRow,
      (decide (a.time ≤ b.time) || decide (b.time ≤ a.time)) = true := by
    intro a b
    rcases le_total a.time b.time with h | h <;> simp [h]
  have hp := List.sorted_mergeSort htrans htotal rows
  exact (hp.imp fun h => of_decide_eq_true h).chain'

/-- Failure of one request: a non-200 HTTP status, or a raised exception. -/
def failedRequest (o : HttpOutcome) : Prop :=
  match o with
  | .response status _ => status ≠ 200
  | .exn _ => True

/-- C5: a request with a non-200 status or a raised exception makes
`download_earthquakes` return `None` (the exception is caught, so nothing
propagates — the function is total), and such an outcome contributes no
entry to the accumulated `period_data` list, wherever it occurs among the
window's requests; the remaining requests are unaffected. -/
theorem failed_request_contributes_nothing (o : HttpOutcome)
    (h : failedRequest o) :
    download_earthquakes o = none ∧
      ∀ pre post : List HttpOutcome,
        period_data (pre ++ o :: post) = period_data (pre ++ post) := by
  have hnone : download_earthquakes o = none := by
    match o with
    | .response status text =>
        simp only [download_earthquakes]
        exact if_neg h
    | .exn msg => rfl
  refine ⟨hnone, fun pre post => ?_⟩
  simp [period_data, hnone]

/-- Witness for C5: an HTTP 503 outcome yields `None` and drops out of the
accumulated data, leaving a neighbouring 200 response's text alone. -/
theorem failed_request_contributes_nothing_witness :
    download_earthquakes (.response 503 "Service Unavailable") = none ∧
      period_data [.response 200 "hdr\nrow", .response 503 "Service Unavailable"]
        = period_data [.response 200 "hdr\nrow"] := by
  have h := failed_request_contributes_nothing
    (.response 503 "Service Unavailable") (by simp [failedRequest])
  exact ⟨h.1, by simpa using h.2 [.response 200 "hdr\nrow"] []⟩

/-- C10: when every request of the 14-window × 6-region cross-product fails
(returns `None`), the run terminates normally in the no-data branch: the
combine/parse/dedup/classify phase is skipped, the no-data message is
printed, and neither the temporary combined file nor the output CSV is
written. (There are indeed 14 windows and 6 region boxes.) -/
theorem total_failure_writes_nothing
    (net : String → String → String → HttpOutcome)
    (h : ∀ dr ∈ date_ranges, ∀ rb ∈ REGIONS,
      download_earthquakes (net dr.1 dr.2 rb.1) = none) :
    runFetcher net
        = { tempContent := none, wroteOutput := false, printedNoData := true } ∧
      date_ranges.length = 14 ∧ REGIONS.length = 6 := by
  have hall : all_data net = [] := by
    unfold all_data
    rw [List.flatMap_eq_nil_iff]
    intro dr hdr
    unfold period_data
    rw [List.filterMap_eq_nil_iff]
    intro o ho
    obtain ⟨rb, hrb, rfl⟩ := List.mem_map.mp ho
    rw [h dr hdr rb hrb]
  refine ⟨?_, rfl, rfl⟩
  unfold runFetcher
  rw [hall]

/-- Witness for C10: a network on which every request raises a connection
error produces a run with no files written and the no-data message. -/
theorem total_failure_writes_nothing_witness :
    runFetcher (fun _ _ _ => .exn "connection refused")
        = { tempContent := none, wroteOutput := false, printedNoData := true } ∧
      date_ranges.length = 14 ∧ REGIONS.length = 6 :=
  total_failure_writes_nothing (fun _ _ _ => .exn "connection refused")
    (fun _ _ _ _ => rfl)

/-- Row of the plotter's dataframe after line 16 of `checkpoint.py` added
the `depth_clean` column; the original columns, `depth` included, are
carried over unchanged. -/
structure CleanedRow extends ClassifiedRow where
  depth_clean : Option ℚ
deriving DecidableEq, Repr

/-- The pandas `Series.clip(lower=...)` operation applied elementwise:
values below the lower bound are replaced by it, and a null (NaN) value
stays null. -/
def clip_lower (lower : ℚ) (d : Option ℚ) : Option ℚ :=
  d.map fun x => if x < lower then lower else x

/-- Line 16 of `checkpoint.py`,
`df["depth_clean"] = df["depth"].clip(lower=0)`: a new column is written,
the existing columns are untouched. -/
def addDepthClean (r : ClassifiedRow) : CleanedRow :=
  { toClassifiedRow := r, depth_clean := clip_lower 0 r.depth }

/-- The `hover_data` mapping passed to `px.scatter_geo` in `checkpoint.py`
(line 135); the `depth` entry refers to the dataframe's original `depth`
column. -/
def hover_data : List (String × Bool) :=
  [("mag", true), ("depth", true), ("place", true), ("time", true),
   ("region", true)]

/-- C9: the negative-depth clipping is display-only — `depth_clean` equals
max(depth, 0) for every row (`Option.map` leaves a null depth null), the
original `depth` column is unchanged, and `depth` is among the columns the
interactive map's hover data shows. -/
theorem depth_clip_display_only (r : ClassifiedRow) :
    (addDepthClean r).depth = r.depth ∧
      (addDepthClean r).depth_clean = r.depth.map (fun d => max d 0) ∧
      ("depth", true) ∈ hover_data := by
  refine ⟨rfl, ?_, by simp [hover_data]⟩
  show clip_lower 0 r.depth = r.depth.map fun d => max d 0
  unfold clip_lower
  cases r.depth with
  | none => rfl
  | some d =>
      rcases lt_or_le d 0 with h | h
      · simp [h, max_eq_right h.le]
      · simp [not_lt.mpr h, max_eq_left h]

end Quakes
